import Mathlib

/-!
# Watershed: the translation unit `src/emscripten/main.cpp`

The repository's only C++ source is a placeholder: a single documentation
comment describing planned WebAssembly work.  This development embeds the
text of that file verbatim and runs a model of the early C++ translation
phases over it (line splicing, comment removal, tokenisation), followed by a
model of how a name becomes visible to JavaScript under Emscripten (a function
marked `EMSCRIPTEN_KEEPALIVE`, or `main`).

Offsets count characters (Unicode code points) from the start of the file.
Raw string literals, digit separators and trigraphs are not modelled; the
file contains no backslash and its only quote characters sit inside the
comment.
-/

namespace Watershed

/-! ## The source text -/

/-- The 97 lines of `src/emscripten/main.cpp`, in order, without their
newline terminators.  Braces are written as `\x7b` and `\x7d`. -/
def mainCppLines : List String := [
  "/**",
  " * emscripten/main.cpp - C++ WebAssembly Module for Watershed",
  " * ",
  " * FUTURE MIGRATION TARGET: Real-time physics and water simulation",
  " * ",
  " * This file is currently a placeholder for future high-performance physics",
  " * and simulation code that needs native-speed execution. C++/Emscripten",
  " * excels at continuous numerical simulation and complex physics calculations.",
  " * ",
  " * PLANNED MIGRATIONS:",
  " * ",
  " * 1. WATER SIMULATION",
  " *    - Shallow water equations for realistic flow",
  " *    - Wave propagation and turbulence",
  " *    - Foam and splash particle systems",
  " *    - Current location: FlowingWater.jsx (shader-based approximation)",
  " *    - Why migrate: Real-time fluid dynamics requires heavy computation",
  " *    - Expected benefit: Physically accurate water behavior, 60 FPS",
  " * ",
  " * 2. ADVANCED PHYSICS CALCULATIONS",
  " *    - Custom collision detection for complex canyon geometry",
  " *    - Player-water interaction forces (drag, buoyancy)",
  " *    - Rapids/waterfall physics",
  " *    - Current location: Rapier physics engine handles basic physics",
  " *    - Why migrate: Game-specific physics optimizations",
  " *    - Expected benefit: More responsive, custom-tuned physics feel",
  " * ",
  " * 3. PARTICLE SYSTEMS",
  " *    - Water spray and mist particles",
  " *    - Debris and sediment simulation",
  " *    - Thousand-particle systems for waterfalls",
  " *    - Current location: Not yet implemented",
  " *    - Why migrate: Per-particle updates each frame",
  " *    - Expected benefit: Rich visual effects at high FPS",
  " * ",
  " * 4. RAYCAST OPTIMIZATION",
  " *    - Fast raycasting for player ground detection",
  " *    - Line-of-sight calculations for camera",
  " *    - Spatial queries for nearby decorations",
  " *    - Current location: Rapier physics queries",
  " *    - Why migrate: Custom data structures for canyon geometry",
  " *    - Expected benefit: Faster queries, less memory",
  " * ",
  " * 5. AUDIO DSP",
  " *    - Procedural river sound generation",
  " *    - Doppler effects for rushing water",
  " *    - 3D audio positioning",
  " *    - Current location: Not yet implemented (may use Howler.js)",
  " *    - Why migrate: Real-time audio synthesis",
  " *    - Expected benefit: Dynamic, responsive soundscape",
  " * ",
  " * IMPLEMENTATION PATTERN:",
  " * ",
  " * ```cpp",
  " * // Example: Water simulation step",
  " * extern \"C\" \x7b",
  " *   EMSCRIPTEN_KEEPALIVE",
  " *   void updateWaterSimulation(",
  " *     float* heightField,     // Water height grid",
  " *     float* velocityField,   // Flow velocity grid",
  " *     int gridWidth,",
  " *     int gridHeight,",
  " *     float deltaTime",
  " *   ) \x7b",
  " *     // Solve shallow water equations",
  " *     // Update height and velocity fields",
  " *   \x7d",
  " * \x7d",
  " * ```",
  " * ",
  " * LIBRARY RECOMMENDATIONS:",
  " * - Eigen: Fast linear algebra for physics",
  " * - GLM: OpenGL Mathematics for vector/matrix operations",
  " * - Intel IPP: Optimized signal processing (if available)",
  " * ",
  " * INTEGRATION NOTES:",
  " * - Use Emscripten's cwrap/ccall for JS bindings",
  " * - Share memory with JavaScript via typed arrays",
  " * - Compile with -O3 and -s ALLOW_MEMORY_GROWTH=1",
  " * - Profile with Emscripten's built-in profiler",
  " * - Consider SIMD for data-parallel operations",
  " * ",
  " * THREADING CONSIDERATIONS:",
  " * - Emscripten supports pthreads for multi-threading",
  " * - Water simulation could run on dedicated worker thread",
  " * - Requires SharedArrayBuffer (enable COOP/COEP headers)",
  " * ",
  " * CURRENT STATUS: ⚠️ PLACEHOLDER - No active C++ code yet",
  " * PRIORITY: High - Physics is core to gameplay feel",
  " * ",
  " * NEXT STEPS:",
  " * 1. Set up Emscripten build toolchain",
  " * 2. Create simple \"hello world\" function to test integration",
  " * 3. Port one small physics calculation as proof-of-concept",
  " * 4. Profile and compare with JavaScript baseline",
  " * 5. Iterate on most impactful migrations",
  " */"
]

/-- Characters of a file given by its lines: every line is followed by a
newline, as in the file on disk. -/
def sourceText (lines : List String) : List Char :=
  lines.flatMap fun l => l.toList ++ ['\n']

/-- The characters of `src/emscripten/main.cpp`. -/
def mainCpp : List Char := sourceText mainCppLines

/-- Offsets `(first, next)` of each line of a file: the line's characters sit
at `first ≤ i < next`; its newline sits at offset `next`. -/
def lineSpansFrom : Nat → List String → List (Nat × Nat)
  | _, [] => []
  | start, l :: rest =>
    (start, start + l.length) :: lineSpansFrom (start + l.length + 1) rest

/-- Line offsets counted from the start of the file. -/
def lineSpans (lines : List String) : List (Nat × Nat) := lineSpansFrom 0 lines

/-! ## Translation phase 2: line splicing -/

/-- The double quote character. -/
def dquote : Char := Char.ofNat 34

/-- The single quote character. -/
def squote : Char := Char.ofNat 39

/-- The backslash character. -/
def backslash : Char := Char.ofNat 92

/-- A backslash immediately followed by a newline is deleted, joining the two
physical lines. -/
def spliceLines : List Char → List Char
  | [] => []
  | [c] => [c]
  | c :: d :: rest =>
    if c = backslash ∧ d = '\n' then spliceLines rest
    else c :: spliceLines (d :: rest)

/-! ## Translation phase 3: comments -/

/-- Where the comment scanner is. -/
inductive LexMode
  | code       -- ordinary program text
  | slash      -- program text, the previous character was a `/`
  | block      -- inside `/* ... */`
  | blockStar  -- inside `/* ... */`, the previous character was a `*`
  | line       -- inside `// ...`
  | str        -- inside a string literal
  | strEsc     -- inside a string literal, after a backslash
  | chr        -- inside a character literal
  | chrEsc     -- inside a character literal, after a backslash
  deriving DecidableEq, Repr

/-- The comment scanner: its mode, the offset of the next character, the
offset at which the comment being read (or the pending `/`) began, the program
text produced so far and the comments closed so far (both newest first). -/
structure LexState where
  mode : LexMode
  pos : Nat
  opened : Nat
  out : List Char
  comments : List (Nat × Nat)
  deriving DecidableEq, Repr

/-- The scanner before the first character. -/
def LexState.init : LexState :=
  { mode := .code, pos := 0, opened := 0, out := [], comments := [] }

/-- One character of ordinary program text read at offset `at_`: a `/` is held
back (it may open a comment), a quote opens a literal, anything else is
copied. -/
def codeStep (s : LexState) (at_ : Nat) (c : Char) : LexState :=
  if c = '/' then { s with mode := .slash, opened := at_ }
  else if c = dquote then { s with mode := .str, out := c :: s.out }
  else if c = squote then { s with mode := .chr, out := c :: s.out }
  else { s with mode := .code, out := c :: s.out }

/-- The scanner reads one character.  A comment is replaced by one space; the
newline that ends a `//` comment is kept.  A closed comment is recorded as
`(first, next)`: it occupies the offsets `first ≤ i < next`. -/
def lexStep (s : LexState) (c : Char) : LexState :=
  let t := { s with pos := s.pos + 1 }
  match s.mode with
  | .code => codeStep t s.pos c
  | .slash =>
    if c = '*' then { t with mode := .block }
    else if c = '/' then { t with mode := .line }
    else codeStep { t with out := '/' :: s.out } s.pos c
  | .block =>
    if c = '*' then { t with mode := .blockStar } else t
  | .blockStar =>
    if c = '/' then
      { t with mode := .code, out := ' ' :: s.out,
               comments := (s.opened, s.pos + 1) :: s.comments }
    else if c = '*' then t
    else { t with mode := .block }
  | .line =>
    if c = '\n' then
      { t with mode := .code, out := '\n' :: ' ' :: s.out,
               comments := (s.opened, s.pos) :: s.comments }
    else t
  | .str =>
    if c = backslash then { t with mode := .strEsc, out := c :: s.out }
    else if c = dquote ∨ c = '\n' then { t with mode := .code, out := c :: s.out }
    else { t with out := c :: s.out }
  | .strEsc => { t with mode := .str, out := c :: s.out }
  | .chr =>
    if c = backslash then { t with mode := .chrEsc, out := c :: s.out }
    else if c = squote ∨ c = '\n' then { t with mode := .code, out := c :: s.out }
    else { t with out := c :: s.out }
  | .chrEsc => { t with mode := .chr, out := c :: s.out }

/-- The scanner run over a whole text. -/
def lexRun (cs : List Char) : LexState := cs.foldl lexStep LexState.init

/-- Result of comment removal: the remaining program text and the comments
found, in file order. -/
structure Stripped where
  text : List Char
  comments : List (Nat × Nat)
  deriving DecidableEq, Repr

/-- End of input.  A pending `/` is program text, a `//` comment ends with the
file, and a block comment that was never closed makes the file ill-formed. -/
def lexFinish (s : LexState) : Option Stripped :=
  match s.mode with
  | .block | .blockStar => none
  | .slash => some { text := ('/' :: s.out).reverse, comments := s.comments.reverse }
  | .line =>
    some { text := (' ' :: s.out).reverse,
           comments := ((s.opened, s.pos) :: s.comments).reverse }
  | _ => some { text := s.out.reverse, comments := s.comments.reverse }

/-- Comment removal for a whole file, after line splicing. -/
def stripComments (src : List Char) : Option Stripped :=
  lexFinish (lexRun (spliceLines src))

/-! ## Tokens -/

/-- A preprocessing token, coarsely: a word (identifier, keyword or number),
a string or character literal, or a single punctuation character. -/
inductive Token
  | word (s : String)
  | literal (s : String)
  | punct (c : Char)
  deriving DecidableEq, Repr

/-- Characters that make up words. -/
def isWordChar (c : Char) : Bool := c.isAlphanum || c = '_'

/-- Where the tokeniser is. -/
inductive TokMode
  | code | word | str | strEsc | chr | chrEsc
  deriving DecidableEq, Repr

/-- The tokeniser: its mode, the characters of the token being read and the
tokens finished so far (both newest first). -/
structure TokState where
  mode : TokMode
  acc : List Char
  toks : List Token
  deriving DecidableEq, Repr

/-- The tokeniser before the first character. -/
def TokState.init : TokState := { mode := .code, acc := [], toks := [] }

/-- One character read between tokens: white space is skipped, a word
character starts a word, a quote starts a literal, anything else is a
punctuation token. -/
def tokCode (toks : List Token) (c : Char) : TokState :=
  if isWordChar c then { mode := .word, acc := [c], toks := toks }
  else if c = dquote then { mode := .str, acc := [c], toks := toks }
  else if c = squote then { mode := .chr, acc := [c], toks := toks }
  else if c.isWhitespace then { mode := .code, acc := [], toks := toks }
  else { mode := .code, acc := [], toks := .punct c :: toks }

/-- The tokeniser reads one character. -/
def tokStep (s : TokState) (c : Char) : TokState :=
  match s.mode with
  | .code => tokCode s.toks c
  | .word =>
    if isWordChar c then { s with acc := c :: s.acc }
    else tokCode (.word (String.mk s.acc.reverse) :: s.toks) c
  | .str =>
    if c = backslash then { s with mode := .strEsc, acc := c :: s.acc }
    else if c = dquote ∨ c = '\n' then
      { mode := .code, acc := [], toks := .literal (String.mk (c :: s.acc).reverse) :: s.toks }
    else { s with acc := c :: s.acc }
  | .strEsc => { s with mode := .str, acc := c :: s.acc }
  | .chr =>
    if c = backslash then { s with mode := .chrEsc, acc := c :: s.acc }
    else if c = squote ∨ c = '\n' then
      { mode := .code, acc := [], toks := .literal (String.mk (c :: s.acc).reverse) :: s.toks }
    else { s with acc := c :: s.acc }
  | .chrEsc => { s with mode := .chr, acc := c :: s.acc }

/-- End of input: the token being read, if any, is finished. -/
def tokFinish (s : TokState) : List Token :=
  match s.mode with
  | .code => s.toks.reverse
  | .word => (Token.word (String.mk s.acc.reverse) :: s.toks).reverse
  | _ => (Token.literal (String.mk s.acc.reverse) :: s.toks).reverse

/-- Tokens of a program text from which comments have been removed. -/
def tokenize (cs : List Char) : List Token := tokFinish (cs.foldl tokStep TokState.init)

/-- Tokens of a source file; `none` when the file is ill-formed (a block
comment is never closed). -/
def unitTokens (src : List Char) : Option (List Token) :=
  (stripComments src).map fun r => tokenize r.text

/-! ## Names a translation unit can introduce -/

/-- A word is an identifier when it does not start with a digit. -/
def isIdentifier (s : String) : Bool :=
  match s.toList with
  | [] => false
  | c :: _ => !c.isDigit

/-- The identifiers among the tokens.  Every function, type, variable,
namespace or macro a translation unit declares is spelled by one of them. -/
def identifiers : List Token → List String
  | [] => []
  | .word s :: rest => if isIdentifier s then s :: identifiers rest else identifiers rest
  | _ :: rest => identifiers rest

/-- Identifiers directly followed by an opening parenthesis: the names of
the functions a translation unit declares, defines or calls. -/
def functionNames : List Token → List String
  | [] => []
  | [_] => []
  | .word s :: .punct p :: rest =>
    if isIdentifier s ∧ p = '(' then s :: functionNames (.punct p :: rest)
    else functionNames (.punct p :: rest)
  | _ :: t :: rest => functionNames (t :: rest)

/-- Functions marked `EMSCRIPTEN_KEEPALIVE`: for each occurrence of the
marker, the first function name after it. -/
def keepaliveNames : List Token → List String
  | [] => []
  | t :: rest =>
    if t = .word "EMSCRIPTEN_KEEPALIVE" then
      (functionNames rest).head?.toList ++ keepaliveNames rest
    else keepaliveNames rest

/-- Symbols the compiled module exposes to JavaScript: the functions marked
`EMSCRIPTEN_KEEPALIVE`, and `main` when the unit has one. -/
def exportedNames (ts : List Token) : List String :=
  keepaliveNames ts ++ (if "main" ∈ functionNames ts then ["main"] else [])

/-- Identifiers of a source file (none for an ill-formed file). -/
def declarableNames (src : List Char) : List String :=
  identifiers ((unitTokens src).getD [])

/-- Function names of a source file (none for an ill-formed file). -/
def declaredFunctions (src : List Char) : List String :=
  functionNames ((unitTokens src).getD [])

/-- Symbols a source file exposes to JavaScript (none for an ill-formed file). -/
def exportedSymbols (src : List Char) : List String :=
  exportedNames ((unitTokens src).getD [])

/-! ## The illustrative snippet, taken out of the comment -/

/-- Lines 55 to 68 of `src/emscripten/main.cpp` without the leading ` * ` of
the comment: the text the file would hold if the example were code. -/
def snippetLines : List String := [
  "// Example: Water simulation step",
  "extern \"C\" \x7b",
  "  EMSCRIPTEN_KEEPALIVE",
  "  void updateWaterSimulation(",
  "    float* heightField,     // Water height grid",
  "    float* velocityField,   // Flow velocity grid",
  "    int gridWidth,",
  "    int gridHeight,",
  "    float deltaTime",
  "  ) \x7b",
  "    // Solve shallow water equations",
  "    // Update height and velocity fields",
  "  \x7d",
  "\x7d"
]

/-- Lines 55 to 68 of the file as they stand, inside the comment. -/
def commentedSnippetLines : List String := (mainCppLines.drop 54).take 14

/-! ## Auxiliary definitions for the proofs -/

/-- The scanner reads one line and its newline. -/
def lexLine (s : LexState) (l : String) : LexState :=
  lexStep (l.toList.foldl lexStep s) '\n'

/-- Whether a text read inside a block comment contains the `*/` that closes
it; `star` tells whether the character before the text was a `*`. -/
def closesBlock : Bool → List Char → Bool
  | _, [] => false
  | star, c :: cs => (star && c == '/') || closesBlock (c == '*') cs

/-- The mode inside a block comment, given whether the last character was a `*`. -/
def blockMode (star : Bool) : LexMode := if star then .blockStar else .block

/-- Lines 2 to 96 of the file: everything between the line that opens the
comment and the line that closes it. -/
def bodyLines : List String := (mainCppLines.drop 1).take 95

/-- Whether `name` occurs somewhere in `text`. -/
def occursIn (name : List Char) : List Char → Bool
  | [] => name.isEmpty
  | c :: cs => name.isPrefixOf (c :: cs) || occursIn name cs

/-- Whether a line mentions a name. -/
def mentions (l : String) (name : String) : Bool := occursIn name.toList l.toList

/-- The names used by the illustrative snippet. -/
def snippetNames : List String := ["updateWaterSimulation", "heightField", "velocityField"]

/-- The lines of the file outside lines 55 to 68. -/
def otherLines : List String := mainCppLines.take 54 ++ mainCppLines.drop 68

/-! ## Reading lines inside a block comment: lemmas -/

theorem lexRun_sourceText (lines : List String) (s : LexState) :
    (sourceText lines).foldl lexStep s = lines.foldl lexLine s := by
  induction lines generalizing s with
  | nil => rfl
  | cons l rest ih =>
    simp only [sourceText, List.flatMap_cons, List.foldl_append, List.foldl_cons,
      List.foldl_nil] at ih ⊢
    rw [ih]
    rfl

theorem lexStep_block (s : LexState) (star : Bool) (c : Char)
    (hm : s.mode = blockMode star) (hc : (star && c == '/') = false) :
    lexStep s c = { s with mode := blockMode (c == '*'), pos := s.pos + 1 } := by
  cases star
  · simp only [blockMode, Bool.false_eq_true, if_false] at hm
    by_cases h : c = '*'
    · simp [lexStep, hm, h, blockMode]
    · simp [lexStep, hm, h, blockMode]
  · simp only [blockMode, if_true] at hm
    have h1 : c ≠ '/' := by simpa using hc
    by_cases h : c = '*'
    · simp [lexStep, hm, h, blockMode]
    · simp [lexStep, hm, h, h1, blockMode]

theorem foldl_lexStep_block (cs : List Char) (s : LexState) (star : Bool)
    (hm : s.mode = blockMode star) (hc : closesBlock star cs = false) :
    ∃ star', cs.foldl lexStep s =
      { s with mode := blockMode star', pos := s.pos + cs.length } := by
  induction cs generalizing s star with
  | nil => exact ⟨star, by simp [← hm]⟩
  | cons c cs ih =>
    simp only [closesBlock, Bool.or_eq_false_iff] at hc
    obtain ⟨star', h⟩ := ih (lexStep s c) (c == '*')
      (by rw [lexStep_block s star c hm hc.1]) hc.2
    refine ⟨star', ?_⟩
    rw [List.foldl_cons, h, lexStep_block s star c hm hc.1]
    simp only [List.length_cons, LexState.mk.injEq, true_and, and_true]
    omega

theorem lexLine_block (s : LexState) (l : String)
    (hm : s.mode = .block) (hc : closesBlock false l.toList = false) :
    lexLine s l = { s with pos := s.pos + (l.length + 1) } := by
  obtain ⟨star', h⟩ := foldl_lexStep_block l.toList s false (by simp [blockMode, hm]) hc
  have hnl : ('\n' == '*') = false := by decide
  rw [lexLine, h, lexStep_block _ star' '\n' rfl (by rw [Bool.and_eq_false_iff]; right; decide),
    hnl]
  cases s
  simp only [blockMode, Bool.false_eq_true, if_false, LexState.mk.injEq, true_and, and_true] at hm ⊢
  exact ⟨hm.symm, by simp only [String.length, String.toList]; omega⟩

theorem foldl_lexLine_block (ls : List String) (s : LexState)
    (hm : s.mode = .block) (hc : ls.all (fun l => !closesBlock false l.toList) = true) :
    ls.foldl lexLine s =
      { s with pos := s.pos + (ls.map fun l => l.length + 1).sum } := by
  induction ls generalizing s with
  | nil => simp
  | cons l rest ih =>
    simp only [List.all_cons, Bool.and_eq_true, Bool.not_eq_true'] at hc
    rw [List.foldl_cons, lexLine_block s l hm hc.1,
      ih { s with pos := s.pos + (l.length + 1) } hm hc.2]
    simp only [List.map_cons, List.sum_cons, LexState.mk.injEq, true_and, and_true]
    omega

theorem spliceLines_of_not_mem (cs : List Char) (h : backslash ∉ cs) :
    spliceLines cs = cs := by
  induction cs using spliceLines.induct with
  | case1 => rfl
  | case2 c => rfl
  | case3 c d rest hcd ih =>
    exact absurd hcd.1.symm (fun e => h (by simp [e]))
  | case4 c d rest hcd ih =>
    rw [spliceLines, if_neg hcd, ih (fun hm => h (List.mem_cons_of_mem _ hm))]

theorem not_mem_sourceText (c : Char) (lines : List String) (hn : c ≠ '\n')
    (h : lines.all (fun l => !l.toList.contains c) = true) : c ∉ sourceText lines := by
  induction lines with
  | nil => simp [sourceText]
  | cons l rest ih =>
    simp only [List.all_cons, Bool.and_eq_true, Bool.not_eq_true'] at h
    have h1 : c ∉ l.data := by simpa using h.1
    have := ih h.2
    simp only [sourceText, List.flatMap_cons, List.mem_append, List.mem_singleton] at this ⊢
    rintro ((hl | hl) | hl)
    · exact h1 hl
    · exact hn hl
    · exact this hl

/-! ## The file: comment removal -/

theorem mainCppLines_shape : mainCppLines = "/**" :: (bodyLines ++ [" */"]) := by
  decide

theorem bodyLines_open :
    bodyLines.all (fun l => !closesBlock false l.toList) = true := by
  decide

theorem bodyLines_size : (bodyLines.map fun l => l.length + 1).sum = 3619 := by
  decide!

theorem mainCppLines_no_backslash :
    mainCppLines.all (fun l => !l.toList.contains backslash) = true := by
  decide

theorem lexRun_mainCpp :
    lexRun mainCpp =
      { mode := .code, pos := 3627, opened := 0, out := ['\n', ' '], comments := [(0, 3626)] } := by
  have h1 : lexLine LexState.init "/**" =
      { mode := .block, pos := 4, opened := 0, out := [], comments := [] } := by decide
  rw [lexRun, mainCpp, lexRun_sourceText, mainCppLines_shape, List.foldl_cons, List.foldl_append,
    h1, foldl_lexLine_block _ _ rfl bodyLines_open, bodyLines_size]
  decide

theorem stripComments_mainCpp :
    stripComments mainCpp = some { text := [' ', '\n'], comments := [(0, 3626)] } := by
  have h : backslash ∉ mainCpp :=
    not_mem_sourceText _ _ (by decide) mainCppLines_no_backslash
  rw [stripComments, spliceLines_of_not_mem _ h, lexRun_mainCpp]
  decide

theorem tokenize_blank : tokenize [' ', '\n'] = [] := by decide

theorem unitTokens_mainCpp : unitTokens mainCpp = some [] := by
  rw [unitTokens, stripComments_mainCpp, Option.map_some', tokenize_blank]

theorem lineSpans_mainCpp :
    ∀ sp ∈ lineSpans mainCppLines, sp.2 ≤ 3626 := by
  decide!

theorem snippet_names_only_in_snippet :
    ∀ n ∈ snippetNames,
      (∃ l ∈ commentedSnippetLines, mentions l n = true) ∧
      ∀ l ∈ otherLines, mentions l n = false := by
  decide!

/-! ## Names: general facts -/

theorem functionNames_subset (ts : List Token) :
    ∀ n ∈ functionNames ts, n ∈ identifiers ts := by
  induction ts using functionNames.induct with
  | case1 => simp [functionNames]
  | case2 t => simp [functionNames]
  | case3 s p rest h ih =>
    intro n hn
    rw [functionNames, if_pos h, List.mem_cons] at hn
    rw [identifiers, if_pos h.1, List.mem_cons]
    rcases hn with hn | hn
    · exact Or.inl hn
    · exact Or.inr (by simpa [identifiers] using ih n hn)
  | case4 s p rest h ih =>
    intro n hn
    rw [functionNames, if_neg h] at hn
    have := ih n hn
    rw [identifiers]
    split
    · exact List.mem_cons_of_mem _ (by simpa [identifiers] using this)
    · simpa [identifiers] using this
  | case5 t u rest hne ih =>
    intro n hn
    have hn' : n ∈ functionNames (u :: rest) := by
      cases t <;> cases u <;> simp_all [functionNames]
    have := ih n hn'
    cases t with
    | word s =>
      rw [identifiers]
      split
      · exact List.mem_cons_of_mem _ this
      · exact this
    | literal s => simpa [identifiers] using this
    | punct c => simpa [identifiers] using this

theorem keepaliveNames_subset (ts : List Token) :
    ∀ n ∈ keepaliveNames ts, n ∈ identifiers ts := by
  induction ts with
  | nil => simp [keepaliveNames]
  | cons t rest ih =>
    have hrest : ∀ n ∈ identifiers rest, n ∈ identifiers (t :: rest) := by
      intro n hn
      cases t with
      | word s =>
        rw [identifiers]
        split
        · exact List.mem_cons_of_mem _ hn
        · exact hn
      | literal s => simpa [identifiers] using hn
      | punct c => simpa [identifiers] using hn
    intro n hn
    rw [keepaliveNames] at hn
    split at hn
    · rw [List.mem_append] at hn
      rcases hn with hn | hn
      · apply hrest
        apply functionNames_subset
        cases hf : functionNames rest with
        | nil => simp [hf] at hn
        | cons a as =>
          simp only [hf, List.head?_cons, Option.toList, List.mem_singleton] at hn
          simp [hn]
      · exact hrest n (ih n hn)
    · exact hrest n (ih n hn)

/-- Every exported symbol is spelled by an identifier token of the unit. -/
theorem exportedNames_subset (ts : List Token) :
    ∀ n ∈ exportedNames ts, n ∈ identifiers ts := by
  intro n hn
  rw [exportedNames, List.mem_append] at hn
  rcases hn with hn | hn
  · exact keepaliveNames_subset ts n hn
  · split at hn
    · rename_i hmain
      rw [List.mem_singleton] at hn
      exact hn ▸ functionNames_subset ts _ hmain
    · simp at hn

/-! ## The snippet, were it code -/

/-- Taken out of the comment, the snippet is the text of lines 55 to 68
without the comment's margin, and it would declare and export
`updateWaterSimulation` with parameters `heightField` and `velocityField`. -/
theorem snippet_uncommented_exports :
    commentedSnippetLines.map (fun l => String.mk (l.toList.drop 3)) = snippetLines ∧
    declaredFunctions (sourceText snippetLines) = ["updateWaterSimulation"] ∧
    exportedSymbols (sourceText snippetLines) = ["updateWaterSimulation"] ∧
    "heightField" ∈ declarableNames (sourceText snippetLines) ∧
    "velocityField" ∈ declarableNames (sourceText snippetLines) := by
  decide!

/-! ## The translation unit defines nothing -/

/-- C1: `src/emscripten/main.cpp` defines nothing.  The file has 97 lines;
comment removal succeeds and finds exactly one comment, opening at offset 0
and closing at offset 3626, and every line of the file lies inside it; what
remains is one space and the final newline, so the unit has no tokens.  For
every name, the unit has no identifier, no function and no exported symbol
of that name, and the set of symbols exposed to JavaScript is empty.  The
names `updateWaterSimulation`, `heightField` and `velocityField` are mentioned
in lines 55 to 68 (the commented snippet) and in no other line. -/
theorem mainCpp_defines_nothing :
    mainCppLines.length = 97 ∧
    stripComments mainCpp = some { text := [' ', '\n'], comments := [(0, 3626)] } ∧
    (∀ sp ∈ lineSpans mainCppLines, sp.2 ≤ 3626) ∧
    unitTokens mainCpp = some [] ∧
    (∀ name : String,
      name ∉ declarableNames mainCpp ∧ name ∉ declaredFunctions mainCpp ∧
      name ∉ exportedSymbols mainCpp) ∧
    exportedSymbols mainCpp = [] ∧
    (∀ n ∈ snippetNames,
      (∃ l ∈ commentedSnippetLines, mentions l n = true) ∧
      (∀ l ∈ otherLines, mentions l n = false) ∧
      n ∉ declarableNames mainCpp) := by
  have hd : declarableNames mainCpp = [] := by
    rw [declarableNames, unitTokens_mainCpp]; rfl
  have hf : declaredFunctions mainCpp = [] := by
    rw [declaredFunctions, unitTokens_mainCpp]; rfl
  have he : exportedSymbols mainCpp = [] := by
    rw [exportedSymbols, unitTokens_mainCpp]; rfl
  refine ⟨by decide, stripComments_mainCpp, lineSpans_mainCpp, unitTokens_mainCpp, ?_, he, ?_⟩
  · intro name
    rw [hd, hf, he]
    exact ⟨List.not_mem_nil _, List.not_mem_nil _, List.not_mem_nil _⟩
  · intro n hn
    obtain ⟨h1, h2⟩ := snippet_names_only_in_snippet n hn
    exact ⟨h1, h2, by rw [hd]; exact List.not_mem_nil _⟩

end Watershed
